import Mathlib

/-!
Verification of the review orchestration and diff-reconciliation engine of
the open-coderabbit-server repository.

The development shallowly embeds the TypeScript sources:
  * `src/types.ts`          — data model (files, review comments, events);
  * `src/services/reviewService.ts` — diff hunk indexer, comment
    categorization, summary step, and the `run` orchestration pipeline;
  * `src/services/ai/index.ts` — the provider's `generateReviewSummary`
    empty-findings short circuit;
  * `src/router.ts`         — event subscription filtering and `stopReview`.

JavaScript strings are modelled as Lean `String`s, `split('\n')` and
`startsWith` are given explicit structural definitions over character lists
(semantically identical to the JS built-ins), JS `Set<number>` becomes
`Finset ℤ`, and the asynchronous pipeline becomes a pure function from an
oracle behaviour (the outcome of each AI call) to the emitted event trace.
-/

/-! ### String primitives (JS `split('\n')`, `startsWith`, digit parsing) -/

/-- Characters of a Lean string. -/
def strChars (s : String) : List Char := s.data

/-- JS `String.prototype.split('\n')` on character lists: accumulate the
current piece (reversed) and cut at every newline.  A trailing newline
yields a trailing empty piece, exactly as in JS. -/
def splitNlAux : List Char → List Char → List String
  | [], acc => [String.mk acc.reverse]
  | c :: cs, acc =>
      if c = '\n' then String.mk acc.reverse :: splitNlAux cs []
      else splitNlAux cs (c :: acc)

/-- JS `s.split('\n')`. -/
def splitNl (s : String) : List String := splitNlAux (strChars s) []

/-- JS `String.prototype.startsWith` on character lists. -/
def charsStartWith : List Char → List Char → Bool
  | [], _ => true
  | _ :: _, [] => false
  | p :: ps, c :: cs => p = c && charsStartWith ps cs

/-- JS `s.startsWith(p)`. -/
def jsStartsWith (s p : String) : Bool := charsStartWith (strChars p) (strChars s)

/-- Longest run of decimal digits at the head of a character list, together
with the remaining characters (the `\d+` / `\d*` scanner of the hunk-header
regular expression). -/
def spanDigits : List Char → (List Char × List Char)
  | [] => ([], [])
  | c :: cs =>
      if c.isDigit then
        let (d, r) := spanDigits cs
        (c :: d, r)
      else ([], c :: cs)

/-- Numeric value of a digit string — JS `parseInt(digits, 10)`. -/
def digitsToNat (ds : List Char) : Nat :=
  ds.foldl (fun a c => 10 * a + (c.toNat - 48)) 0

/-! ### Data model (src/types.ts) -/

/-- `issueType` of src/types.ts. -/
inductive IssueType
  | potential_issue
  | refactor_suggestion
  | nitpick
  | verification
  | other
  deriving DecidableEq, Repr

/-- `fileSchema` of src/types.ts: the per-file review input. -/
structure File where
  filename : String
  diff : String
  newFile : Bool
  renamedFile : Bool
  deletedFile : Bool
  fileContent : String
  deriving DecidableEq, Repr

/-- `reviewCommentSchema` of src/types.ts: one AI-produced finding.  Line
numbers are JS numbers; we carry them as integers (untrusted input may lie
outside any hunk). -/
structure ReviewComment where
  filename : String
  startLine : Int
  endLine : Int
  comment : String
  type : IssueType
  suggestions : Option (List String) := none
  codegenInstructions : Option String := none
  deriving DecidableEq, Repr

/-! ### Diff hunk indexer
(`ReviewService.categorizeAndSendDetails`, reviewService.ts lines 176–197) -/

/-- The hunk-header regular expression
`/^@@ -\d+(,\d+)? \+(\d+)(,\d+)? @@/` applied to one line, returning
`parseInt(match[2], 10)` — the new-file start — when it matches.  The
optional `(,\d+)?` groups are deterministic here because the character that
must follow them (a space) is neither a comma nor a digit. -/
def parseHunkHeader (line : String) : Option Nat :=
  match strChars line with
  | '@' :: '@' :: ' ' :: '-' :: rest =>
      let (d1, r1) := spanDigits rest
      if d1.isEmpty then none
      else
        match optCommaDigits r1 with
        | none => none
        | some r2 =>
            match r2 with
            | ' ' :: '+' :: r3 =>
                let (d2, r4) := spanDigits r3
                if d2.isEmpty then none
                else
                  match optCommaDigits r4 with
                  | none => none
                  | some r5 =>
                      match r5 with
                      | ' ' :: '@' :: '@' :: _ => some (digitsToNat d2)
                      | _ => none
            | _ => none
  | _ => none
where
  /-- The optional `(,\d+)?` group: a leading comma must be followed by at
  least one digit, which is consumed; otherwise nothing is consumed. -/
  optCommaDigits : List Char → Option (List Char)
    | ',' :: rest =>
        let (d, r) := spanDigits rest
        if d.isEmpty then none else some r
    | rest => some rest

/-- One step of the diff scan, carrying `(currentNewLine, changedLines)`:
a `@@` line re-seats the cursor (or resets it to 0 on a malformed header);
a `+` line records the cursor and advances it; a space line advances it;
every other line (including removals) leaves the state untouched. -/
def indexStep (st : Int × Finset Int) (line : String) : Int × Finset Int :=
  if jsStartsWith line "@@" then
    match parseHunkHeader line with
    | some c => ((c : Int), st.2)
    | none => (0, st.2)
  else if jsStartsWith line "+" then
    (st.1 + 1, insert st.1 st.2)
  else if jsStartsWith line " " then
    (st.1 + 1, st.2)
  else st

/-- The set of changed (added) new-file line numbers of one file's unified
diff — the `changedLines` set built per file in `categorizeAndSendDetails`. -/
def changedLinesOfDiff (diff : String) : Finset Int :=
  ((splitNl diff).foldl indexStep (0, ∅)).2

/-- `changedLinesMap.get(name)` after the per-file construction loop: a JS
`Map` keyed by filename in which a later file with the same name overwrites
an earlier one, so the lookup finds the last matching file. -/
def changedLinesFor (files : List File) (name : String) : Option (Finset Int) :=
  (files.reverse.find? (fun f => f.filename = name)).map
    (fun f => changedLinesOfDiff f.diff)

/-! ### Comment categorization
(`ReviewService.categorizeAndSendDetails`, reviewService.ts lines 199–254) -/

/-- The `inDiff` flag of the categorization loop: some line of
`[startLine, endLine]` lies in the file's changed-line set (`false` when the
file is absent from the map). -/
def inDiff (files : List File) (c : ReviewComment) : Bool :=
  match changedLinesFor files c.filename with
  | none => false
  | some s => decide (∃ i ∈ Finset.Icc c.startLine c.endLine, i ∈ s)

/-- Append a comment to the entry of `k` in a `Record<string, ReviewComment[]>`
modelled as an insertion-ordered association list (the JS
`if (!m[k]) m[k] = []; m[k].push(c)` idiom). -/
def pushAssoc (m : List (String × List ReviewComment)) (k : String)
    (c : ReviewComment) : List (String × List ReviewComment) :=
  match m with
  | [] => [(k, [c])]
  | (k2, v) :: rest =>
      if k2 = k then (k2, v ++ [c]) :: rest else (k2, v) :: pushAssoc rest k c

/-- Sum of the lengths of a record's values — the
`Object.values(m).reduce((acc, val) => acc + val.length, 0)` count. -/
def recordCount (m : List (String × List ReviewComment)) : Nat :=
  (m.map (fun kv => kv.2.length)).sum

/-- All comments stored in a record, in record order. -/
def recordVals (m : List (String × List ReviewComment)) : List ReviewComment :=
  m.flatMap (fun kv => kv.2)

/-- The `counts` object of the `additional_details` payload. -/
structure Counts where
  assertive : Nat
  additional : Nat
  outside_diff : Nat
  deriving DecidableEq, Repr

/-- `additionalDetailsPayloadSchema` of src/types.ts (the
`duplicateComments` record is always emitted empty and omitted here). -/
structure AdditionalDetailsPayload where
  counts : Counts
  assertiveComments : List (String × List ReviewComment)
  additionalComments : List (String × List ReviewComment)
  outsideDiffRangeComments : List ReviewComment
  deriving DecidableEq, Repr

/-- Intermediate categorization state: the `assertiveFileReviewMap`,
`fileReviewMap`, and `outsideDiffRangeComments` accumulators. -/
structure CatState where
  assertiveMap : List (String × List ReviewComment)
  fileMap : List (String × List ReviewComment)
  outside : List ReviewComment
  deriving DecidableEq, Repr

/-- One iteration of the categorization loop: nitpicks always go to the
assertive map; other comments go to the file map when they touch the diff
and to the outside-diff list otherwise. -/
def catStep (files : List File) (st : CatState) (c : ReviewComment) : CatState :=
  if c.type = IssueType.nitpick then
    { st with assertiveMap := pushAssoc st.assertiveMap c.filename c }
  else if inDiff files c then
    { st with fileMap := pushAssoc st.fileMap c.filename c }
  else
    { st with outside := st.outside ++ [c] }

/-- The full categorization pass and the payload it emits. -/
def categorize (files : List File) (comments : List ReviewComment) :
    AdditionalDetailsPayload :=
  let st := comments.foldl (catStep files) ⟨[], [], []⟩
  { counts :=
      { assertive := recordCount st.assertiveMap
        additional := recordCount st.fileMap
        outside_diff := st.outside.length }
    assertiveComments := st.assertiveMap
    additionalComments := st.fileMap
    outsideDiffRangeComments := st.outside }

/-- The destination a comment is routed to by `catStep`, named after the
three emitted groups. -/
inductive CodeBucket
  | assertive
  | additional
  | outsideDiff
  deriving DecidableEq, Repr

/-- The routing decision implemented by the code: nitpick → assertive map,
otherwise diff overlap → additional map, otherwise outside-diff list. -/
def codeBucketOf (files : List File) (c : ReviewComment) : CodeBucket :=
  if c.type = IssueType.nitpick then CodeBucket.assertive
  else if inDiff files c then CodeBucket.additional
  else CodeBucket.outsideDiff

/-- The spec's classification buckets. -/
inductive SpecBucket
  | assertive
  | additional
  | outsideDiffRange
  | nitpick
  deriving DecidableEq, Repr

/-- Modelled from the spec: the four-rule first-match classifier of spec
§4.3 — style-nit → nitpick regardless of overlap; no overlap →
outsideDiffRange; bug or structural-improvement → assertive; otherwise
additional.  Stated only to compare against `codeBucketOf`. -/
def specBucketOf (files : List File) (c : ReviewComment) : SpecBucket :=
  if c.type = IssueType.nitpick then SpecBucket.nitpick
  else if ¬ inDiff files c then SpecBucket.outsideDiffRange
  else if c.type = IssueType.potential_issue ∨ c.type = IssueType.refactor_suggestion then
    SpecBucket.assertive
  else SpecBucket.additional

/-! ### Events and statuses (src/types.ts, `ReviewService.emitEvent`) -/

/-- `reviewStatus` of src/types.ts. -/
inductive ReviewStatusT
  | in_progress
  | completed
  | failed
  | cancelled
  deriving DecidableEq, Repr

/-- The `{summary, shortSummary}` object returned by
`generateReviewSummary`. -/
structure Summary where
  summary : String
  shortSummary : String
  deriving DecidableEq, Repr

/-- `serverEvent` of src/types.ts, with the payload each emission site
attaches.  `review_comment` carries the underlying finding; the
markdown/patch enrichment added by `processAndSendComments` is modelled by
the Suggestion Patcher section below. -/
inductive EventKind
  | state_update (status : ReviewStatusT)
  | product_settings (isPaidUser : Bool)
  | review_status (s : String)
  | thinking_update (message : String)
  | pr_title (t : String)
  | pr_objective (t : String)
  | walk_through (t : String)
  | review_comment (c : ReviewComment)
  | additional_details (p : AdditionalDetailsPayload)
  | short_summary (s : String)
  | summary_comment (s : String)
  | rate_limit_exceeded (message : String)
  | error (message : String)
  | review_completed (status : ReviewStatusT)
  deriving DecidableEq, Repr

/-- One event on the shared emitter, as built by `emitEvent`: the kind plus
the emitting session's `reviewId` and `clientId` (the wall-clock `endedAt`
stamp is outside the model). -/
structure Event where
  kind : EventKind
  reviewId : String
  clientId : String
  deriving DecidableEq, Repr

/-! ### Oracle behaviour
All AI calls are suspension points that either return a value or throw; a
run of the pipeline is determined by the outcome of each call, which we
package as a record.  `Except Unit` is used where only success/failure
matters to the control flow. -/

/-- The error thrown out of a failed review call.  `overloaded` abstracts
the `handleError` test
`cause.isRetryable === true && responseBody.includes('overloaded')`. -/
structure OracleError where
  overloaded : Bool
  deriving DecidableEq, Repr

/-- Outcome of every external call of one `ReviewService.run` execution,
plus `categorizeThrows`: whether the categorization stage throws (e.g. a
subscriber callback failing during the synchronous emit). -/
structure RunBehavior where
  title : Except Unit String
  objective : Except Unit String
  walkthrough : Except Unit String
  /-- Findings yielded by `streamCodeReview` before it completes or fails. -/
  streamItems : List ReviewComment
  /-- `none`: the stream ran to completion; `some e`: it threw `e` after
  yielding `streamItems`. -/
  streamError : Option OracleError
  /-- Result of the `performCodeReview` fallback (consulted only when the
  stream fails). -/
  batch : Except OracleError (List ReviewComment)
  summaryResult : Except Unit Summary
  categorizeThrows : Bool

/-! ### Pipeline stages (reviewService.ts) -/

/-- `generatePrDetails` (lines 71–110): a thinking update precedes each of
the title, objective and walkthrough calls; each call is wrapped in its own
try/catch, so a failure only suppresses that call's result event. -/
def generatePrDetails (b : RunBehavior) : List EventKind :=
  [EventKind.thinking_update "Generating a title for your review..."]
  ++ (match b.title with
      | Except.ok t => [EventKind.pr_title t]
      | Except.error _ => [])
  ++ [EventKind.thinking_update "Formulating the objective..."]
  ++ (match b.objective with
      | Except.ok t => [EventKind.pr_objective t]
      | Except.error _ => [])
  ++ [EventKind.thinking_update "Preparing a walkthrough..."]
  ++ (match b.walkthrough with
      | Except.ok t => [EventKind.walk_through t]
      | Except.error _ => [])

/-- The canned result returned by `UnifiedAiProvider.generateReviewSummary`
when there are no comments (ai/index.ts lines 105–110). -/
def cannedNoIssues : Summary :=
  { summary := "✅ Great work! No issues were found in the code."
    shortSummary := "No issues found." }

/-- `UnifiedAiProvider.generateReviewSummary` (ai/index.ts lines 102–120):
an empty comment list short-circuits to the canned result without touching
the model.  The second component records the argument of the model call
(`none` when the model was not consulted). -/
def generateReviewSummary (oracle : List ReviewComment → Except Unit Summary)
    (comments : List ReviewComment) :
    Except Unit Summary × Option (List ReviewComment) :=
  if comments.length = 0 then (Except.ok cannedNoIssues, none)
  else (oracle comments, some comments)

/-- `generateAndSendSummary` (lines 263–279): thinking update, then the
provider call; on success both summary events are emitted, on failure the
error is logged and swallowed. -/
def generateAndSendSummary (b : RunBehavior) (comments : List ReviewComment) :
    List EventKind :=
  [EventKind.thinking_update "Generating a summary of the review..."]
  ++ (match (generateReviewSummary (fun _ => b.summaryResult) comments).1 with
      | Except.ok s =>
          [EventKind.short_summary s.shortSummary,
           EventKind.summary_comment s.summary]
      | Except.error _ => [])

/-- Argument the summary model call receives during
`generateAndSendSummary`, or `none` when no model call is made. -/
def summaryCallArg (b : RunBehavior) (comments : List ReviewComment) :
    Option (List ReviewComment) :=
  (generateReviewSummary (fun _ => b.summaryResult) comments).2

/-- `categorizeAndSendDetails` events: the whole body sits in a try/catch
that logs and swallows, so a failing categorization emits nothing. -/
def categorizeEvents (b : RunBehavior) (files : List File)
    (comments : List ReviewComment) : List EventKind :=
  if b.categorizeThrows then []
  else [EventKind.additional_details (categorize files comments)]

/-- Stable insertion of a comment into a list sorted by descending
`startLine`. -/
def insertByStartLineDesc (c : ReviewComment) :
    List ReviewComment → List ReviewComment
  | [] => [c]
  | d :: ds =>
      if d.startLine > c.startLine then d :: insertByStartLineDesc c ds
      else c :: d :: ds

/-- `allComments.sort((a, b) => b.startLine - a.startLine)` (line 372): a
stable sort by descending start line. -/
def sortByStartLineDesc (l : List ReviewComment) : List ReviewComment :=
  l.foldr insertByStartLineDesc []

/-- The tail of a successful review path (lines 371–388): sort, categorize,
summarize, then the Completed terminal event. -/
def afterFindingsEvents (b : RunBehavior) (files : List File)
    (allComments : List ReviewComment) : List EventKind :=
  let sorted := sortByStartLineDesc allComments
  categorizeEvents b files sorted
  ++ generateAndSendSummary b sorted
  ++ [EventKind.review_completed ReviewStatusT.completed]

/-- `handleError` (lines 289–312): a specific error event (rate-limit when
the cause is a retryable overload, generic otherwise), the failed state
update, and the Failed terminal event. -/
def handleErrorEvents (e : OracleError) : List EventKind :=
  (if e.overloaded then
    [EventKind.rate_limit_exceeded "The model is overloaded. Please try again later."]
   else [EventKind.error "Failed to process AI review."])
  ++ [EventKind.state_update ReviewStatusT.failed,
      EventKind.review_completed ReviewStatusT.failed]

/-- The finding list `allComments` holds when the pipeline reaches the
categorization/summary stages (lines 346–363): the streamed items when the
stream completes; the streamed items WITH the batch result appended when
the stream fails and the fallback succeeds; the fallback's error when both
fail. -/
def accumulatedFindings (b : RunBehavior) :
    Except OracleError (List ReviewComment) :=
  match b.streamError with
  | none => Except.ok b.streamItems
  | some _ =>
      match b.batch with
      | Except.ok sync => Except.ok (b.streamItems ++ sync)
      | Except.error e => Except.error e

/-- `ReviewService.run` (lines 314–404) as the event-kind trace of one
execution under behaviour `b`. -/
def runEvents (b : RunBehavior) (files : List File) : List EventKind :=
  [EventKind.state_update ReviewStatusT.in_progress,
   EventKind.product_settings true,
   EventKind.review_status "summarizing"]
  ++ generatePrDetails b
  ++ [EventKind.review_status "reviewing"]
  ++ b.streamItems.map EventKind.review_comment
  ++ (match b.streamError with
      | none => afterFindingsEvents b files b.streamItems
      | some _ =>
          match b.batch with
          | Except.ok sync =>
              sync.map EventKind.review_comment
              ++ afterFindingsEvents b files (b.streamItems ++ sync)
          | Except.error e => handleErrorEvents e)

/-- The trace of `run` tagged with the session's ids, as `emitEvent` sends
them to the shared emitter. -/
def runTrace (b : RunBehavior) (files : List File)
    (reviewId clientId : String) : List Event :=
  (runEvents b files).map (fun k => ⟨k, reviewId, clientId⟩)

/-! ### Router (src/router.ts) -/

/-- The subscription filter of `subscribeToEvents` (lines 84–96): an event
is forwarded to the subscriber exactly when `data.clientId ===
input.clientId`. -/
def delivers (subscriberClientId : String) (e : Event) : Bool :=
  e.clientId == subscriberClientId

/-- The single event `stopReview` (lines 132–147) emits: a Cancelled
terminal for the requested review, with the literal clientId `"*"`. -/
def stopReviewEvent (reviewId : String) : Event :=
  { kind := EventKind.review_completed ReviewStatusT.cancelled
    reviewId := reviewId
    clientId := "*" }

/-- Is `e` a terminal `review_completed` event of review `reviewId`? -/
def isTerminalFor (reviewId : String) (e : Event) : Bool :=
  e.reviewId == reviewId
    && (match e.kind with
        | EventKind.review_completed _ => true
        | _ => false)

/-- Number of terminal events of `reviewId` in a trace. -/
def terminalCount (tr : List Event) (reviewId : String) : Nat :=
  (tr.filter (isTerminalFor reviewId)).length

/-! ### Suggestion Patcher -/

/-- Modelled from the spec: §4.4's Suggestion Patcher.  In the code
(`processAndSendComments`, reviewService.ts lines 112–169) the conversion
is delegated to the external npm `diff` package (`createPatch`), whose
sources are not part of this repository; we model its line-level diff as a
longest-common-subsequence edit script.  Texts are modelled as their line
lists, the empty replacement as the empty list.  One edit operation of the
patch: keep, delete, or insert a line. -/
inductive DiffOp
  | keep (line : String)
  | del (line : String)
  | ins (line : String)
  deriving DecidableEq, Repr

/-- Length of a longest common subsequence of two line lists. -/
def lcsLen : List String → List String → Nat
  | [], _ => 0
  | _ :: _, [] => 0
  | x :: xs, y :: ys =>
      if x = y then 1 + lcsLen xs ys
      else max (lcsLen (x :: xs) ys) (lcsLen xs (y :: ys))
termination_by xs ys => xs.length + ys.length

/-- Modelled from the spec: the minimal edit script from `original` to
`replacement` (the structured patch the npm `diff` package computes).  When
the heads differ, the branch keeping the longer common subsequence is
taken. -/
def diffOps : List String → List String → List DiffOp
  | [], ys => ys.map DiffOp.ins
  | x :: xs, [] => DiffOp.del x :: diffOps xs []
  | x :: xs, y :: ys =>
      if x = y then DiffOp.keep x :: diffOps xs ys
      else if lcsLen xs (y :: ys) ≥ lcsLen (x :: xs) ys then
        DiffOp.del x :: diffOps xs (y :: ys)
      else DiffOp.ins y :: diffOps (x :: xs) ys
termination_by xs ys => xs.length + ys.length

/-- Modelled from the spec: applying an edit script to an original line
list (the npm `diff` package's `applyPatch`); `none` when the script does
not fit the input. -/
def applyOps : List DiffOp → List String → Option (List String)
  | [], [] => some []
  | [], _ :: _ => none
  | DiffOp.keep s :: ops, l :: ls =>
      if s = l then (applyOps ops ls).map (fun r => l :: r) else none
  | DiffOp.keep _ :: _, [] => none
  | DiffOp.del s :: ops, l :: ls =>
      if s = l then applyOps ops ls else none
  | DiffOp.del _ :: _, [] => none
  | DiffOp.ins s :: ops, ls => (applyOps ops ls).map (fun r => s :: r)

/-- Is an edit operation a deletion? -/
def DiffOp.isDel : DiffOp → Bool
  | DiffOp.del _ => true
  | _ => false

/-- The human-readable rendering kept by `processAndSendComments`: changed
lines only (`+`/`-`), headers stripped. -/
def renderPatchLines (ops : List DiffOp) : List String :=
  ops.filterMap fun op =>
    match op with
    | DiffOp.keep _ => none
    | DiffOp.del l => some ("-" ++ l)
    | DiffOp.ins l => some ("+" ++ l)

/-! ### Recursive characterization of the hunk indexer
A second definition of the indexer, written from the claim's narrative of
the algorithm (running cursor threaded through a single recursive scan), to
be compared with the fold `changedLinesOfDiff` extracted from the code. -/

/-- The indexer as the claim narrates it: scan once; a hunk header re-seats
the cursor (0 when unparsable); `+` records the cursor and advances; a
context line advances without recording; anything else (removed lines
included) leaves the cursor alone. -/
def specIndex : List String → Int → Finset Int
  | [], _ => ∅
  | line :: rest, cursor =>
      if jsStartsWith line "@@" then
        match parseHunkHeader line with
        | some c => specIndex rest (c : Int)
        | none => specIndex rest 0
      else if jsStartsWith line "+" then
        insert cursor (specIndex rest (cursor + 1))
      else if jsStartsWith line " " then specIndex rest (cursor + 1)
      else specIndex rest cursor

/-! ### Concrete inputs used by several claims -/

/-- The spec §8 example diff. -/
def exampleDiff : String := "@@ -1,2 +1,3 @@\n line1\n+line2\n line3"

/-- The spec §8 example file carrying `exampleDiff`. -/
def exampleFile : File :=
  { filename := "a.ts", diff := exampleDiff, newFile := false
    renamedFile := false, deletedFile := false
    fileContent := "line1\nline2\nline3" }

/-- A bug finding on lines 2–2 of the example file. -/
def bugOn2 : ReviewComment :=
  { filename := "a.ts", startLine := 2, endLine := 2
    comment := "b", type := IssueType.potential_issue }

/-- C4, as stated, is false: for the spec §8 diff the code's changed-line
set is not `{1, 2, 3}` — the context lines 1 and 3 advance the cursor but
are never recorded. -/
theorem changed_line_set_example_counterexample :
    changedLinesOfDiff exampleDiff ≠ ({1, 2, 3} : Finset Int) := by
  decide

/-- C4 amended: for the diff `@@ -1,2 +1,3 @@` with lines ` line1`,
`+line2`, ` line3`, the computed changed-line set is exactly `{2}`: the set
contains the new-file line numbers of added lines only, while context lines
merely advance the cursor. -/
theorem changed_line_set_example_added_only :
    changedLinesOfDiff exampleDiff = ({2} : Finset Int) := by
  decide

/-! ### Classifier lemmas (claim C2) -/

/-- Pushing one comment into a record raises its total count by one. -/
lemma recordCount_pushAssoc (m : List (String × List ReviewComment)) (k : String)
    (c : ReviewComment) : recordCount (pushAssoc m k c) = recordCount m + 1 := by
  induction m with
  | nil => simp [pushAssoc, recordCount]
  | cons kv rest ih =>
      obtain ⟨k2, v⟩ := kv
      by_cases h : k2 = k <;> simp [pushAssoc, h, recordCount] at ih ⊢ <;> omega

lemma recordVals_pushAssoc (m : List (String × List ReviewComment)) (k : String)
    (c : ReviewComment) : (recordVals (pushAssoc m k c)).Perm (c :: recordVals m) := by
  induction m with
  | nil => simp [pushAssoc, recordVals]
  | cons kv rest ih =>
      obtain ⟨k2, v⟩ := kv
      simp only [recordVals] at ih ⊢
      by_cases h : k2 = k
      · subst h
        simp only [pushAssoc, if_pos rfl, if_true, List.flatMap_cons,
          List.append_assoc, List.singleton_append]
        exact List.perm_middle
      · simp only [pushAssoc, if_neg h, List.flatMap_cons]
        exact (ih.append_left v).trans List.perm_middle

lemma catStep_assertiveMap (files : List File) (st : CatState) (c : ReviewComment) :
    (catStep files st c).assertiveMap =
      if codeBucketOf files c == CodeBucket.assertive then
        pushAssoc st.assertiveMap c.filename c
      else st.assertiveMap := by
  simp only [catStep, codeBucketOf]
  split_ifs <;> simp_all

lemma catStep_fileMap (files : List File) (st : CatState) (c : ReviewComment) :
    (catStep files st c).fileMap =
      if codeBucketOf files c == CodeBucket.additional then
        pushAssoc st.fileMap c.filename c
      else st.fileMap := by
  simp only [catStep, codeBucketOf]
  split_ifs <;> simp_all

lemma catStep_outside (files : List File) (st : CatState) (c : ReviewComment) :
    (catStep files st c).outside =
      if codeBucketOf files c == CodeBucket.outsideDiff then st.outside ++ [c]
      else st.outside := by
  simp only [catStep, codeBucketOf]
  split_ifs <;> simp_all

lemma foldl_catStep_assertiveMap (files : List File) :
    ∀ (cs : List ReviewComment) (st : CatState),
      (cs.foldl (catStep files) st).assertiveMap =
        cs.foldl
          (fun m c =>
            if codeBucketOf files c == CodeBucket.assertive then
              pushAssoc m c.filename c
            else m)
          st.assertiveMap := by
  intro cs
  induction cs with
  | nil => intro st; rfl
  | cons c cs ih =>
      intro st
      simp only [List.foldl_cons, ih, catStep_assertiveMap]

lemma foldl_catStep_fileMap (files : List File) :
    ∀ (cs : List ReviewComment) (st : CatState),
      (cs.foldl (catStep files) st).fileMap =
        cs.foldl
          (fun m c =>
            if codeBucketOf files c == CodeBucket.additional then
              pushAssoc m c.filename c
            else m)
          st.fileMap := by
  intro cs
  induction cs with
  | nil => intro st; rfl
  | cons c cs ih =>
      intro st
      simp only [List.foldl_cons, ih, catStep_fileMap]

lemma foldl_catStep_outside (files : List File) :
    ∀ (cs : List ReviewComment) (st : CatState),
      (cs.foldl (catStep files) st).outside =
        st.outside
          ++ cs.filter (fun c => codeBucketOf files c == CodeBucket.outsideDiff) := by
  intro cs
  induction cs with
  | nil => intro st; simp
  | cons c cs ih =>
      intro st
      by_cases h : codeBucketOf files c == CodeBucket.outsideDiff
      · have h2 := catStep_outside files st c
        rw [if_pos h] at h2
        simp [List.foldl_cons, ih, h, List.filter_cons, h2]
      · have h2 := catStep_outside files st c
        rw [if_neg h] at h2
        simp [List.foldl_cons, ih, h, List.filter_cons, h2]

lemma foldl_pushAssoc_count (p : ReviewComment → Bool) :
    ∀ (cs : List ReviewComment) (m : List (String × List ReviewComment)),
      recordCount
          (cs.foldl (fun m c => if p c then pushAssoc m c.filename c else m) m)
        = recordCount m + (cs.filter p).length := by
  intro cs
  induction cs with
  | nil => intro m; simp
  | cons c cs ih =>
      intro m
      by_cases h : p c
      · simp [List.foldl_cons, h, ih, recordCount_pushAssoc, List.filter_cons]
        omega
      · simp [List.foldl_cons, h, ih, List.filter_cons]

lemma foldl_pushAssoc_vals (p : ReviewComment → Bool) :
    ∀ (cs : List ReviewComment) (m : List (String × List ReviewComment)),
      (recordVals
          (cs.foldl (fun m c => if p c then pushAssoc m c.filename c else m) m)).Perm
        (recordVals m ++ cs.filter p) := by
  intro cs
  induction cs with
  | nil => intro m; simp
  | cons c cs ih =>
      intro m
      by_cases h : p c
      · simp only [List.foldl_cons, if_pos h, List.filter_cons, h, if_true]
        refine (ih (pushAssoc m c.filename c)).trans ?_
        refine ((recordVals_pushAssoc m c.filename c).append_right _).trans ?_
        exact List.perm_middle.symm
      · simp only [List.foldl_cons, if_neg h, List.filter_cons, h, if_false]
        exact ih m


/-- C2, as stated, is false: the spec's rule 3 sends an in-diff bug finding
to the assertive bucket, but the code routes every in-diff non-nitpick to
the additional map — on the spec §8 example the emitted assertive count is
0 and the additional count is 1. -/
theorem classifier_differs_from_spec_counterexample :
    specBucketOf [exampleFile] bugOn2 = SpecBucket.assertive
    ∧ codeBucketOf [exampleFile] bugOn2 = CodeBucket.additional
    ∧ (categorize [exampleFile] [bugOn2]).counts.assertive = 0
    ∧ (categorize [exampleFile] [bugOn2]).counts.additional = 1 := by
  refine ⟨by decide, by decide, by decide, by decide⟩

/-- C2 amended: the bucket assigned by categorization follows the code's
three-rule first-match decision (`codeBucketOf`): a nitpick finding goes to
the assertive map regardless of overlap; otherwise a finding with no line
of `[startLine, endLine]` in the file's changed-line set goes to the
outside-diff list; otherwise it goes to the additional map — and the
emitted counts equal the bucket sizes. -/
theorem categorize_buckets_and_counts (files : List File)
    (comments : List ReviewComment) :
    ((categorize files comments).counts.assertive
        = (comments.filter
            (fun c => codeBucketOf files c == CodeBucket.assertive)).length)
    ∧ ((categorize files comments).counts.additional
        = (comments.filter
            (fun c => codeBucketOf files c == CodeBucket.additional)).length)
    ∧ ((categorize files comments).counts.outside_diff
        = (comments.filter
            (fun c => codeBucketOf files c == CodeBucket.outsideDiff)).length)
    ∧ (recordVals (categorize files comments).assertiveComments).Perm
        (comments.filter (fun c => codeBucketOf files c == CodeBucket.assertive))
    ∧ (recordVals (categorize files comments).additionalComments).Perm
        (comments.filter (fun c => codeBucketOf files c == CodeBucket.additional))
    ∧ ((categorize files comments).outsideDiffRangeComments
        = comments.filter
            (fun c => codeBucketOf files c == CodeBucket.outsideDiff)) := by
  refine ⟨?_, ?_, ?_, ?_, ?_, ?_⟩ <;>
    simp only [categorize, foldl_catStep_assertiveMap, foldl_catStep_fileMap,
      foldl_catStep_outside, foldl_pushAssoc_count, foldl_pushAssoc_vals]
  · simp [recordCount]
  · simp [recordCount]
  · simp
  · simpa [recordVals] using
      foldl_pushAssoc_vals
        (fun c => codeBucketOf files c == CodeBucket.assertive) comments []
  · simpa [recordVals] using
      foldl_pushAssoc_vals
        (fun c => codeBucketOf files c == CodeBucket.additional) comments []
  · simp

/-! ### Indexer lemmas (claim C7) -/

/-- The single left-to-right fold of the code equals the recursive
cursor-threading description, for any starting cursor and accumulator. -/
lemma foldl_indexStep_eq (lines : List String) :
    ∀ (cur : Int) (acc : Finset Int),
      (lines.foldl indexStep (cur, acc)).2 = acc ∪ specIndex lines cur := by
  induction lines with
  | nil => intro cur acc; simp [specIndex]
  | cons line rest ih =>
      intro cur acc
      simp only [List.foldl_cons, specIndex, indexStep]
      by_cases h1 : jsStartsWith line "@@"
      · simp only [h1, if_true]
        cases hp : parseHunkHeader line with
        | some c => simp [ih]
        | none => simp [ih]
      · simp only [h1, Bool.false_eq_true, if_false]
        by_cases h2 : jsStartsWith line "+"
        · simp [h2, ih, Finset.insert_union, Finset.union_insert]
        · by_cases h3 : jsStartsWith line " " <;> simp [h2, h3, ih]

/-- C7: the hunk indexer scans the diff lines once and computes exactly the
recursive cursor description — hunk headers re-seat the cursor (0 when the
header does not parse), context and added lines advance it, removed lines
do not, and the cursor is recorded at every added line; moreover the
changed-line set looked up for a file depends only on that file's own diff,
so a malformed header in one file never affects another file's set. -/
theorem indexer_single_pass_characterization :
    (∀ diffText : String,
      changedLinesOfDiff diffText = specIndex (splitNl diffText) 0)
    ∧ (∀ (files : List File) (g : File) (name : String),
        changedLinesFor (files ++ [g]) name =
          if g.filename = name then some (changedLinesOfDiff g.diff)
          else changedLinesFor files name) := by
  constructor
  · intro diffText
    simp [changedLinesOfDiff, foldl_indexStep_eq]
  · intro files g name
    by_cases h : g.filename = name <;>
      simp [changedLinesFor, List.reverse_append, List.find?_cons, h]

/-! ### Patcher lemmas (claim C8) -/

/-- An insertion-only script applied to the empty input produces exactly
the inserted lines. -/
lemma applyOps_ins_all (ys : List String) :
    applyOps (ys.map DiffOp.ins) [] = some ys := by
  induction ys with
  | nil => rfl
  | cons y ys ih => simp [applyOps, ih]

/-- Applying the computed edit script to the original reproduces the
replacement. -/
lemma diffOps_round_trip (original replacement : List String) :
    applyOps (diffOps original replacement) original = some replacement := by
  induction original, replacement using diffOps.induct with
  | case1 ys => simpa [diffOps] using applyOps_ins_all ys
  | case2 x xs ih => simp [diffOps, applyOps, ih]
  | case3 xs y ys ih => simp [diffOps, applyOps, ih]
  | case4 x xs y ys hxy hge ih => simp [diffOps, applyOps, hxy, hge, ih]
  | case5 x xs y ys hxy hge ih => simp [diffOps, applyOps, hxy, hge, ih]

/-- The edit script towards the empty replacement only deletes. -/
lemma diffOps_empty_all_del (original : List String) :
    (diffOps original []).all DiffOp.isDel = true := by
  induction original with
  | nil => simp [diffOps]
  | cons x xs ih => simp [diffOps, DiffOp.isDel, ih]

/-- C8: the suggestion patcher is total and round-trips — for every
original line block and replacement (single-line blocks and the empty
replacement included) the patch is produced without failure, applying it to
the original reproduces the replacement, and an empty replacement yields a
pure deletion patch whose application leaves no remaining content. -/
theorem patcher_round_trip :
    (∀ original replacement : List String,
      applyOps (diffOps original replacement) original = some replacement)
    ∧ (∀ original : List String,
        (diffOps original []).all DiffOp.isDel = true
        ∧ applyOps (diffOps original []) original = some []) :=
  ⟨diffOps_round_trip,
   fun o => ⟨diffOps_empty_all_del o, diffOps_round_trip o []⟩⟩

/-! ### Summarizing-stage and summary-call theorems (claims C9, C6, C10) -/

/-- C9: the title, objective and walkthrough calls are independently
best-effort — every run emits the three thinking progress messages in
order, whatever succeeds or fails; and each result event appears exactly
when its own call succeeds, independently of the outcome of the other two
calls. -/
theorem pr_details_best_effort (b : RunBehavior) :
    ((generatePrDetails b).filterMap
        (fun k =>
          match k with
          | EventKind.thinking_update m => some m
          | _ => none)
      = ["Generating a title for your review...",
         "Formulating the objective...",
         "Preparing a walkthrough..."])
    ∧ (∀ t, EventKind.pr_title t ∈ generatePrDetails b ↔ b.title = Except.ok t)
    ∧ (∀ t,
        EventKind.pr_objective t ∈ generatePrDetails b
          ↔ b.objective = Except.ok t)
    ∧ (∀ t,
        EventKind.walk_through t ∈ generatePrDetails b
          ↔ b.walkthrough = Except.ok t) := by
  rcases ht : b.title with e1 | t1 <;>
    rcases ho : b.objective with e2 | t2 <;>
    rcases hw : b.walkthrough with e3 | t3 <;>
    simp [generatePrDetails, ht, ho, hw, eq_comm]

/-- C6: with an empty finding list the provider's summary call
short-circuits — the model is never consulted and the canned no-issues
result is returned and emitted — while every non-empty list is passed to
the model verbatim. -/
theorem empty_findings_skip_summary :
    (∀ oracle : List ReviewComment → Except Unit Summary,
      generateReviewSummary oracle [] = (Except.ok cannedNoIssues, none))
    ∧ (∀ (oracle : List ReviewComment → Except Unit Summary)
        (c : ReviewComment) (cs : List ReviewComment),
        generateReviewSummary oracle (c :: cs)
          = (oracle (c :: cs), some (c :: cs)))
    ∧ (∀ b : RunBehavior,
        generateAndSendSummary b []
          = [EventKind.thinking_update "Generating a summary of the review...",
             EventKind.short_summary "No issues found.",
             EventKind.summary_comment
               "✅ Great work! No issues were found in the code."]
          ∧ summaryCallArg b [] = none) := by
  refine ⟨fun oracle => rfl, fun oracle c cs => ?_, fun b => ⟨rfl, rfl⟩⟩
  unfold generateReviewSummary
  rw [if_neg (by simp)]

/-- C10: event delivery filters by strict clientId equality — a
subscription with clientId `c` receives an event exactly when the event's
clientId equals `c`; in particular the Cancelled terminal that `stopReview`
emits with clientId `"*"` is delivered to a subscriber exactly when that
subscriber's clientId is the literal string `"*"`, and no subscriber ever
receives another clientId's event. -/
theorem event_delivery_strict_client_equality :
    (∀ (c : String) (e : Event), delivers c e = true ↔ e.clientId = c)
    ∧ (∀ rid c : String, delivers c (stopReviewEvent rid) = true ↔ c = "*") := by
  constructor
  · intro c e
    simp [delivers]
  · intro rid c
    simp only [delivers, stopReviewEvent, beq_iff_eq]
    exact eq_comm

/-! ### Fallback accumulation (claim C1) -/

/-- A finding yielded by the stream before its failure. -/
def streamOnly1 : ReviewComment :=
  { filename := "a.ts", startLine := 1, endLine := 1
    comment := "s1", type := IssueType.other }

/-- A second finding yielded by the stream before its failure. -/
def streamOnly2 : ReviewComment :=
  { filename := "a.ts", startLine := 1, endLine := 1
    comment := "s2", type := IssueType.other }

/-- Five findings returned by the batch fallback. -/
def batchFive : List ReviewComment :=
  ["b1", "b2", "b3", "b4", "b5"].map
    (fun s =>
      { filename := "a.ts", startLine := 3, endLine := 3
        comment := s, type := IssueType.other })

/-- The spec §8 fallback scenario: the stream yields two findings and then
fails; the batch returns five findings. -/
def fallbackBehavior : RunBehavior :=
  { title := Except.ok "T", objective := Except.ok "O"
    walkthrough := Except.ok "W"
    streamItems := [streamOnly1, streamOnly2]
    streamError := some { overloaded := false }
    batch := Except.ok batchFive
    summaryResult := Except.ok { summary := "S", shortSummary := "SS" }
    categorizeThrows := false }

/-- C1, as stated, is false: when the stream yields 2 items and fails and
the batch returns 5, the accumulated finding list used downstream has 7
elements — the batch is appended to, it does not replace, the streamed
items — and a stream-only item is passed to categorization. -/
theorem fallback_appends_counterexample :
    accumulatedFindings fallbackBehavior
      = Except.ok ([streamOnly1, streamOnly2] ++ batchFive)
    ∧ ([streamOnly1, streamOnly2] ++ batchFive).length = 7
    ∧ batchFive.length = 5
    ∧ streamOnly1 ∈ sortByStartLineDesc ([streamOnly1, streamOnly2] ++ batchFive)
    ∧ (categorize [exampleFile]
        (sortByStartLineDesc
          ([streamOnly1, streamOnly2] ++ batchFive))).counts.outside_diff = 7
    ∧ EventKind.additional_details
        (categorize [exampleFile]
          (sortByStartLineDesc ([streamOnly1, streamOnly2] ++ batchFive)))
      ∈ runEvents fallbackBehavior [exampleFile] := by
  refine ⟨rfl, rfl, rfl, by decide, by decide, ?_⟩
  simp [fallbackBehavior, runEvents, afterFindingsEvents, categorizeEvents]

/-- C1 amended: when the stream fails after yielding `items` and the batch
fallback returns `sync`, the accumulated finding list used for
categorization and summary is `items ++ sync` — the streamed items plus the
batch result, not the batch result alone — and the emitted categorized
payload is computed from that appended list. -/
theorem fallback_appends_batch_to_stream
    (t o w : Except Unit String) (items : List ReviewComment) (e : OracleError)
    (sync : List ReviewComment) (sr : Except Unit Summary) (files : List File) :
    accumulatedFindings
        { title := t, objective := o, walkthrough := w, streamItems := items
          streamError := some e, batch := Except.ok sync, summaryResult := sr
          categorizeThrows := false }
      = Except.ok (items ++ sync)
    ∧ EventKind.additional_details
        (categorize files (sortByStartLineDesc (items ++ sync)))
      ∈ runEvents
          { title := t, objective := o, walkthrough := w, streamItems := items
            streamError := some e, batch := Except.ok sync, summaryResult := sr
            categorizeThrows := false } files := by
  refine ⟨rfl, ?_⟩
  simp [runEvents, afterFindingsEvents, categorizeEvents]

/-! ### Terminal-event lemmas (claims C5, C3) -/

/-- The Failed terminal never appears among the Summarizing-stage events. -/
lemma failed_not_in_pr_details (b : RunBehavior) :
    EventKind.review_completed ReviewStatusT.failed ∉ generatePrDetails b := by
  rcases ht : b.title with e1 | t1 <;>
    rcases ho : b.objective with e2 | t2 <;>
    rcases hw : b.walkthrough with e3 | t3 <;>
    simp [generatePrDetails, ht, ho, hw]

/-- The summary stage emits no Failed terminal, whether the provider call
succeeds or throws. -/
lemma failed_not_in_summary (b : RunBehavior) (cs : List ReviewComment) :
    EventKind.review_completed ReviewStatusT.failed
      ∉ generateAndSendSummary b cs := by
  unfold generateAndSendSummary
  cases (generateReviewSummary (fun _ => b.summaryResult) cs).1 <;> simp

/-- The categorization stage emits no Failed terminal, whether it throws or
not. -/
lemma failed_not_in_categorize (b : RunBehavior) (files : List File)
    (cs : List ReviewComment) :
    EventKind.review_completed ReviewStatusT.failed
      ∉ categorizeEvents b files cs := by
  unfold categorizeEvents
  split <;> simp

/-- The finalizing tail ends with the Completed terminal event. -/
lemma afterFindings_concat (b : RunBehavior) (files : List File)
    (allComments : List ReviewComment) :
    afterFindingsEvents b files allComments
      = (categorizeEvents b files (sortByStartLineDesc allComments)
          ++ generateAndSendSummary b (sortByStartLineDesc allComments))
        ++ [EventKind.review_completed ReviewStatusT.completed] := by
  unfold afterFindingsEvents
  rw [List.append_assoc]

/-- No Failed terminal occurs anywhere in the finalizing tail. -/
lemma failed_not_in_afterFindings (b : RunBehavior) (files : List File)
    (allComments : List ReviewComment) :
    EventKind.review_completed ReviewStatusT.failed
      ∉ afterFindingsEvents b files allComments := by
  rw [afterFindings_concat]
  simp [failed_not_in_summary, failed_not_in_categorize]

/-- The last event of the finalizing tail is the Completed terminal. -/
lemma afterFindings_getLast (b : RunBehavior) (files : List File)
    (allComments : List ReviewComment) :
    (afterFindingsEvents b files allComments).getLast?
      = some (EventKind.review_completed ReviewStatusT.completed) := by
  rw [afterFindings_concat]
  exact List.getLast?_concat _

/-- The finalizing tail is never empty. -/
lemma afterFindings_ne_nil (b : RunBehavior) (files : List File)
    (allComments : List ReviewComment) :
    afterFindingsEvents b files allComments ≠ [] := by
  rw [afterFindings_concat]
  simp

/-- A run whose stream completes ends with the Completed terminal and
contains no Failed terminal, for every categorization/summary outcome. -/
lemma run_completes_of_stream_ok
    (t o w : Except Unit String) (items : List ReviewComment)
    (ba : Except OracleError (List ReviewComment)) (sr : Except Unit Summary)
    (ct : Bool) (files : List File) :
    (runEvents ⟨t, o, w, items, none, ba, sr, ct⟩ files).getLast?
        = some (EventKind.review_completed ReviewStatusT.completed)
    ∧ EventKind.review_completed ReviewStatusT.failed
        ∉ runEvents ⟨t, o, w, items, none, ba, sr, ct⟩ files := by
  constructor
  · show (_ ++ afterFindingsEvents _ _ _).getLast? = _
    rw [List.getLast?_append_of_ne_nil _ (afterFindings_ne_nil _ _ _),
      afterFindings_getLast]
  · show EventKind.review_completed ReviewStatusT.failed
      ∉ _ ++ afterFindingsEvents _ _ _
    simp only [List.mem_append, not_or]
    refine ⟨?_, failed_not_in_afterFindings _ _ _⟩
    simp [failed_not_in_pr_details]

/-- A run whose stream fails but whose batch fallback succeeds also ends
with the Completed terminal and contains no Failed terminal. -/
lemma run_completes_of_fallback_ok
    (t o w : Except Unit String) (items : List ReviewComment)
    (e : OracleError) (sync : List ReviewComment) (sr : Except Unit Summary)
    (ct : Bool) (files : List File) :
    (runEvents ⟨t, o, w, items, some e, Except.ok sync, sr, ct⟩ files).getLast?
        = some (EventKind.review_completed ReviewStatusT.completed)
    ∧ EventKind.review_completed ReviewStatusT.failed
        ∉ runEvents ⟨t, o, w, items, some e, Except.ok sync, sr, ct⟩ files := by
  constructor
  · show (_ ++ (_ ++ afterFindingsEvents _ _ _)).getLast? = _
    rw [List.getLast?_append_of_ne_nil, List.getLast?_append_of_ne_nil _
      (afterFindings_ne_nil _ _ _), afterFindings_getLast]
    simp [afterFindings_ne_nil]
  · show EventKind.review_completed ReviewStatusT.failed
      ∉ _ ++ (_ ++ afterFindingsEvents _ _ _)
    simp only [List.mem_append, not_or]
    refine ⟨?_, ?_, failed_not_in_afterFindings _ _ _⟩
    · simp [failed_not_in_pr_details]
    · simp

/-- A behaviour in which both the categorization stage and the summary call
fail while the stream succeeds. -/
def swallowBehavior : RunBehavior :=
  { title := Except.ok "T", objective := Except.ok "O"
    walkthrough := Except.ok "W"
    streamItems := [bugOn2], streamError := none, batch := Except.ok []
    summaryResult := Except.error (), categorizeThrows := true }

/-- C5, as stated, is false: on a run whose categorization stage throws and
whose summary call throws, the session still ends with the Completed
terminal event and no Failed terminal is ever emitted — both failures are
caught, logged and swallowed inside their stages. -/
theorem summary_failure_still_completes_counterexample :
    swallowBehavior.categorizeThrows = true
    ∧ swallowBehavior.summaryResult = Except.error ()
    ∧ (runEvents swallowBehavior [exampleFile]).getLast?
        = some (EventKind.review_completed ReviewStatusT.completed)
    ∧ EventKind.review_completed ReviewStatusT.failed
        ∉ runEvents swallowBehavior [exampleFile] := by
  obtain ⟨h1, h2⟩ :=
    run_completes_of_stream_ok (Except.ok "T") (Except.ok "O") (Except.ok "W")
      [bugOn2] (Except.ok []) (Except.error ()) true [exampleFile]
  exact ⟨rfl, rfl, h1, h2⟩

/-- C5 amended: failures thrown during the classification step or the
summary step are logged and swallowed — whenever the finding stage itself
succeeds (stream completes, or stream fails and the batch fallback
succeeds), the session's terminal review-completed event carries status
Completed and no Failed terminal is emitted, for every
classification/summary outcome. -/
theorem classification_summary_failures_swallowed
    (t o w : Except Unit String) (items sync : List ReviewComment)
    (e : OracleError) (ba : Except OracleError (List ReviewComment))
    (sr : Except Unit Summary) (ct : Bool) (files : List File) :
    ((runEvents ⟨t, o, w, items, none, ba, sr, ct⟩ files).getLast?
        = some (EventKind.review_completed ReviewStatusT.completed))
    ∧ (EventKind.review_completed ReviewStatusT.failed
        ∉ runEvents ⟨t, o, w, items, none, ba, sr, ct⟩ files)
    ∧ ((runEvents ⟨t, o, w, items, some e, Except.ok sync, sr, ct⟩
          files).getLast?
        = some (EventKind.review_completed ReviewStatusT.completed))
    ∧ (EventKind.review_completed ReviewStatusT.failed
        ∉ runEvents ⟨t, o, w, items, some e, Except.ok sync, sr, ct⟩ files) := by
  obtain ⟨h1, h2⟩ := run_completes_of_stream_ok t o w items ba sr ct files
  obtain ⟨h3, h4⟩ := run_completes_of_fallback_ok t o w items e sync sr ct files
  exact ⟨h1, h2, h3, h4⟩

/-! ### Stop request versus the running session (claim C3) -/

/-- A fully successful run behaviour. -/
def okBehavior : RunBehavior :=
  { title := Except.ok "T", objective := Except.ok "O"
    walkthrough := Except.ok "W"
    streamItems := [bugOn2], streamError := none, batch := Except.ok []
    summaryResult := Except.ok { summary := "S", shortSummary := "SS" }
    categorizeThrows := false }

/-- The emitter trace when a stop request for review `r1` arrives after the
sixth event of a running session: `stopReview` immediately emits its
Cancelled terminal, and the untouched session keeps running. -/
def stoppedTrace : List Event :=
  (runTrace okBehavior [exampleFile] "r1" "client1").take 6
  ++ [stopReviewEvent "r1"]
  ++ (runTrace okBehavior [exampleFile] "r1" "client1").drop 6

/-- C3 fails on the code: an undisturbed session emits exactly one terminal
event, but a stop request arriving mid-run adds a second — the emitter sees
a Cancelled terminal for `r1` AND, later, the session's own Completed
terminal for the same reviewId, because `run` never observes the stop; the
Cancelled event moreover carries clientId `"*"` and so is not delivered to
the session's own client. -/
theorem stop_request_yields_two_terminal_events :
    terminalCount (runTrace okBehavior [exampleFile] "r1" "client1") "r1" = 1
    ∧ terminalCount stoppedTrace "r1" = 2
    ∧ stopReviewEvent "r1" ∈ stoppedTrace
    ∧ (stopReviewEvent "r1").kind
        = EventKind.review_completed ReviewStatusT.cancelled
    ∧ ((stoppedTrace.drop 7).filter (isTerminalFor "r1")
        = [⟨EventKind.review_completed ReviewStatusT.completed,
            "r1", "client1"⟩])
    ∧ delivers "client1" (stopReviewEvent "r1") = false := by
  refine ⟨by decide, by decide, by decide, rfl, by decide, by decide⟩
